import Mathlib

/-!
Shallow embedding of the fidgechef personalized recipe recommendation engine.

The repository contains two near-identical copies of the engine:
`src/services/RecommendationEngine.ts` (a trimmed variant, whose score has
base / availability / time / favorite / disliked terms) and an unnamed module
(`src/unnamed/part_000`, a fuller variant whose score additionally has
history, dietary-compliance and skill-level terms, and whose services include
cooking-history and ingredient-preference updates).

JavaScript numbers are modelled as exact rationals; the decimal weights
0.3 and 0.2 of the source are the rationals 3/10 and 1/5.  A numeric field
read as `recipe.field || d` defaults both on a missing field and on the
falsy value 0, which `numOr` reproduces.  JS string lowering is modelled by
mapping `Char.toLower` over the characters, and `a.includes(b)` by a
contiguous-sublist test on the character lists.
-/

/-- Embedding of JS `toLowerCase` (ASCII case mapping over the characters). -/
def strLower (s : String) : String := ⟨s.data.map Char.toLower⟩

/-- `startsWithL hay pat` holds when character list `hay` starts with `pat`. -/
def startsWithL : List Char → List Char → Bool
  | _, [] => true
  | [], _ :: _ => false
  | a :: as, b :: bs => (a == b) && startsWithL as bs

/-- `includesL hay pat` holds when `pat` occurs contiguously inside `hay`. -/
def includesL : List Char → List Char → Bool
  | [], pat => pat.isEmpty
  | h :: t, pat => startsWithL (h :: t) pat || includesL t pat

/-- Embedding of JS `a.includes(b)`. -/
def strIncludes (a b : String) : Bool := includesL a.data b.data

/-- The `skillLevel` union type of `UserPreferences`. -/
inductive SkillLevel
  | beginner
  | intermediate
  | advanced
deriving DecidableEq, Repr

/-- The `UserPreferences` interface of the source. -/
structure UserPreferences where
  dietaryRestrictions : List String
  favoriteIngredients : List String
  dislikedIngredients : List String
  cuisinePreferences : List String
  maxCookingTime : ℚ
  skillLevel : SkillLevel
deriving DecidableEq, Repr

/-- The `defaultPreferences` record of both engine modules. -/
def defaultPreferences : UserPreferences :=
  { dietaryRestrictions := []
    favoriteIngredients := []
    dislikedIngredients := []
    cuisinePreferences := []
    maxCookingTime := 60
    skillLevel := .beginner }

/-- The `CookingHistory` interface of the source. -/
structure CookingHistory where
  recipeId : String
  cookedAt : String
  rating : Option ℚ
  notes : Option String
deriving DecidableEq, Repr

/-- The attributes of the loosely typed recipe records that the two scoring
modules read: `id` (already converted to a string, as `recipe.id.toString()`
does at the history lookup), the optional numeric fields, the optional
ingredient-name list (only `ing.name` of each `extendedIngredients` entry is
consumed), the optional instruction text, and the boolean dietary tags (a
missing tag is falsy, hence `false`). -/
structure Recipe where
  id : String
  healthScore : Option ℚ
  spoonacularScore : Option ℚ
  readyInMinutes : Option ℚ
  extendedIngredients : Option (List String)
  instructions : Option String
  vegetarian : Bool
  vegan : Bool
  glutenFree : Bool
deriving DecidableEq, Repr

/-- JS `x || d` for an optional numeric field: a missing field and the falsy
value `0` both give the default. -/
def numOr (x : Option ℚ) (d : ℚ) : ℚ :=
  match x with
  | none => d
  | some v => if v = 0 then d else v

/-- `recipe.extendedIngredients?.map(ing => ing.name.toLowerCase()) || []`. -/
def recipeIngredientNames (r : Recipe) : List String :=
  match r.extendedIngredients with
  | none => []
  | some l => l.map strLower

/-- The test one available ingredient undergoes against one (pre-lowercased)
recipe ingredient inside `calculateIngredientAvailability`:
`availableIng.toLowerCase().includes(recipeIng) ||
 recipeIng.includes(availableIng.toLowerCase())`. -/
def availMatch (availableIng recipeIng : String) : Bool :=
  strIncludes (strLower availableIng) recipeIng ||
    strIncludes recipeIng (strLower availableIng)

/-- The one-directional test used by the favorite and disliked counters:
`recipeIng.includes(other.toLowerCase())`. -/
def oneWayMatch (recipeIng other : String) : Bool :=
  strIncludes recipeIng (strLower other)

/-- `calculateIngredientAvailability` of both modules (recipe ingredients
arrive pre-lowercased from `calculateRecipeScore`). -/
def calculateIngredientAvailability
    (recipeIngredients availableIngredients : List String) : ℚ :=
  if recipeIngredients.length = 0 then 0
  else
    let availableCount :=
      (recipeIngredients.filter (fun recipeIng =>
        availableIngredients.any (fun availableIng =>
          availMatch availableIng recipeIng))).length
    (availableCount : ℚ) / (recipeIngredients.length : ℚ)

/-- `calculateFavoriteIngredientsBonus` of both modules. -/
def calculateFavoriteIngredientsBonus
    (recipeIngredients favoriteIngredients : List String) : ℚ :=
  if favoriteIngredients.length = 0 then 0
  else
    (((recipeIngredients.filter (fun recipeIng =>
      favoriteIngredients.any (fun favorite =>
        oneWayMatch recipeIng favorite))).length : ℚ)) * 8

/-- `calculateDislikedIngredientsPenalty` of both modules. -/
def calculateDislikedIngredientsPenalty
    (recipeIngredients dislikedIngredients : List String) : ℚ :=
  if dislikedIngredients.length = 0 then 0
  else
    (((recipeIngredients.filter (fun recipeIng =>
      dislikedIngredients.any (fun disliked =>
        oneWayMatch recipeIng disliked))).length : ℚ)) * 15

/-- `Math.max(0, Math.min(100, score))`, the final clamp of both modules. -/
def clampScore (score : ℚ) : ℚ := max 0 (min 100 score)

/-- `calculateRecipeScore` of `src/services/RecommendationEngine.ts` (the
trimmed variant: base, availability, time, favorite and disliked terms). -/
def calculateRecipeScore (recipe : Recipe) (preferences : UserPreferences)
    (availableIngredients : List String) : ℚ :=
  let base := numOr recipe.healthScore 50 * (3 / 10) +
    numOr recipe.spoonacularScore 50 * (1 / 5)
  let recipeIngredients := recipeIngredientNames recipe
  let availabilityScore :=
    calculateIngredientAvailability recipeIngredients availableIngredients
  let cookingTime := numOr recipe.readyInMinutes 60
  let timeTerm : ℚ :=
    if cookingTime ≤ preferences.maxCookingTime then
      15 + (if cookingTime ≤ 30 then 10 else 0)
    else -10
  let favoriteBonus := calculateFavoriteIngredientsBonus recipeIngredients
    preferences.favoriteIngredients
  let dislikedPenalty := calculateDislikedIngredientsPenalty recipeIngredients
    preferences.dislikedIngredients
  clampScore (base + availabilityScore * 20 + timeTerm + favoriteBonus - dislikedPenalty)

/-- A recipe together with the attached `personalScore` field. -/
structure ScoredRecipe where
  recipe : Recipe
  personalScore : ℚ
deriving DecidableEq, Repr

/-- The descending order induced by the comparator
`(a, b) => b.personalScore - a.personalScore`. -/
def scoreGE (a b : ScoredRecipe) : Prop := b.personalScore ≤ a.personalScore

instance : DecidableRel scoreGE :=
  fun a b => inferInstanceAs (Decidable (b.personalScore ≤ a.personalScore))

instance : IsTotal ScoredRecipe scoreGE :=
  ⟨fun a b => le_total b.personalScore a.personalScore⟩

instance : IsTrans ScoredRecipe scoreGE :=
  ⟨fun _ _ _ hab hbc => le_trans hbc hab⟩

/-- `getPersonalizedRecommendations` of the trimmed module: score every
candidate, attach the score, sort descending.  The preferences are a
parameter (the source fetches them from the store before scoring). -/
def getPersonalizedRecommendations (preferences : UserPreferences)
    (availableIngredients : List String) (recipes : List Recipe) :
    List ScoredRecipe :=
  let scoredRecipes := recipes.map (fun recipe =>
    { recipe := recipe
      personalScore := calculateRecipeScore recipe preferences availableIngredients })
  scoredRecipes.insertionSort scoreGE

/-- The complexity classes of `estimateRecipeComplexity`. -/
inductive Complexity
  | easy
  | medium
  | hard
deriving DecidableEq, Repr

/-- `recipe.instructions?.length || 0`. -/
def instructionLength (r : Recipe) : ℚ :=
  match r.instructions with
  | none => 0
  | some s => (s.length : ℚ)

/-- `recipe.extendedIngredients?.length || 0`. -/
def ingredientCount (r : Recipe) : ℚ :=
  match r.extendedIngredients with
  | none => 0
  | some l => (l.length : ℚ)

/-- `estimateRecipeComplexity` of the fuller module (note its time default is
30, unlike the 60 used by the score itself). -/
def estimateRecipeComplexity (recipe : Recipe) : Complexity :=
  let cookingTime := numOr recipe.readyInMinutes 30
  let complexityScore := cookingTime / 10 + instructionLength recipe / 100 +
    ingredientCount recipe
  if complexityScore < 15 then .easy
  else if complexityScore < 30 then .medium
  else .hard

/-- `calculateSkillLevelBonus` of the fuller module. -/
def calculateSkillLevelBonus (recipe : Recipe) (skillLevel : SkillLevel) : ℚ :=
  let complexity := estimateRecipeComplexity recipe
  match skillLevel with
  | .beginner =>
    if complexity = .easy then 10 else if complexity = .medium then 0 else -10
  | .intermediate => if complexity = .medium then 10 else 5
  | .advanced => if complexity = .hard then 15 else 8

/-- `checkDietaryCompliance` of the fuller module. -/
def checkDietaryCompliance (recipe : Recipe)
    (dietaryRestrictions : List String) : Bool :=
  if dietaryRestrictions.contains "vegetarian" && !recipe.vegetarian then false
  else if dietaryRestrictions.contains "vegan" && !recipe.vegan then false
  else if dietaryRestrictions.contains "glutenFree" && !recipe.glutenFree then false
  else true

/-- The cooking-history term of the fuller module:
`history.find(h => h.recipeId === recipe.id.toString())`, then
`if (historyEntry?.rating) score += historyEntry.rating * 5` (a rating of 0
is falsy and adds nothing). -/
def historyBonus (history : List CookingHistory) (recipe : Recipe) : ℚ :=
  match history.find? (fun h => h.recipeId == recipe.id) with
  | none => 0
  | some entry =>
    match entry.rating with
    | none => 0
    | some r => if r = 0 then 0 else r * 5

/-- `calculateRecipeScore` of the fuller unnamed module (`src/unnamed/part_000`):
the trimmed terms plus history, dietary-compliance and skill-level terms. -/
def calculateRecipeScoreFull (recipe : Recipe) (preferences : UserPreferences)
    (history : List CookingHistory) (availableIngredients : List String) : ℚ :=
  let base := numOr recipe.healthScore 50 * (3 / 10) +
    numOr recipe.spoonacularScore 50 * (1 / 5)
  let recipeIngredients := recipeIngredientNames recipe
  let availabilityScore :=
    calculateIngredientAvailability recipeIngredients availableIngredients
  let cookingTime := numOr recipe.readyInMinutes 60
  let timeTerm : ℚ :=
    if cookingTime ≤ preferences.maxCookingTime then
      15 + (if cookingTime ≤ 30 then 10 else 0)
    else -10
  let favoriteBonus := calculateFavoriteIngredientsBonus recipeIngredients
    preferences.favoriteIngredients
  let dislikedPenalty := calculateDislikedIngredientsPenalty recipeIngredients
    preferences.dislikedIngredients
  let history := historyBonus history recipe
  let dietary : ℚ :=
    if checkDietaryCompliance recipe preferences.dietaryRestrictions then 10 else 0
  let skillBonus := calculateSkillLevelBonus recipe preferences.skillLevel
  clampScore (base + availabilityScore * 20 + timeTerm + favoriteBonus -
    dislikedPenalty + history + dietary + skillBonus)

/-- `getPersonalizedRecommendations` of the fuller module (it also loads the
cooking history and passes it to the score). -/
def getPersonalizedRecommendationsFull (preferences : UserPreferences)
    (history : List CookingHistory) (availableIngredients : List String)
    (recipes : List Recipe) : List ScoredRecipe :=
  let scoredRecipes := recipes.map (fun recipe =>
    { recipe := recipe
      personalScore :=
        calculateRecipeScoreFull recipe preferences history availableIngredients })
  scoredRecipes.insertionSort scoreGE

/-- Outcome of `AsyncStorage.getItem`: a thrown read error, absence (`null`),
or a stored serialized string. -/
inductive ReadResult
  | err
  | ok (saved : Option String)

/-- `getUserPreferences` of both modules.  The `parse` parameter models
`JSON.parse` (`none` models a parse throw, which the surrounding `try` turns
into the default as well); the guard `saved ?` treats the empty string as
falsy. -/
def getUserPreferences (read : ReadResult)
    (parse : String → Option UserPreferences) : UserPreferences :=
  match read with
  | .err => defaultPreferences
  | .ok none => defaultPreferences
  | .ok (some saved) =>
    if saved = "" then defaultPreferences
    else
      match parse saved with
      | some p => p
      | none => defaultPreferences

/-- `updateIngredientPreference` of the fuller module, acting on the loaded
preferences record (`array.includes` is exact equality, `push` appends,
`filter(ing => ing !== ingredient)` drops exact matches). -/
def updateIngredientPreference (preferences : UserPreferences)
    (ingredient : String) (liked : Bool) : UserPreferences :=
  match liked with
  | true =>
    { preferences with
      favoriteIngredients :=
        if preferences.favoriteIngredients.contains ingredient then
          preferences.favoriteIngredients
        else preferences.favoriteIngredients ++ [ingredient]
      dislikedIngredients :=
        preferences.dislikedIngredients.filter (fun ing => ing != ingredient) }
  | false =>
    { preferences with
      dislikedIngredients :=
        if preferences.dislikedIngredients.contains ingredient then
          preferences.dislikedIngredients
        else preferences.dislikedIngredients ++ [ingredient]
      favoriteIngredients :=
        preferences.favoriteIngredients.filter (fun ing => ing != ingredient) }

/-- Folding a whole call sequence of `updateIngredientPreference` over a
preferences record. -/
def applyIngredientUpdates (preferences : UserPreferences)
    (updates : List (String × Bool)) : UserPreferences :=
  updates.foldl (fun q u => updateIngredientPreference q u.1 u.2) preferences

/-- No ingredient name sits in both the favorite and the disliked set. -/
def disjointPrefs (p : UserPreferences) : Prop :=
  ∀ x, ¬(x ∈ p.favoriteIngredients ∧ x ∈ p.dislikedIngredients)

/-- `addToCookingHistory` of the fuller module: build the new entry (the
timestamp is a parameter standing for `new Date().toISOString()`) and prepend
it to the history purged of entries for the same `recipeId`. -/
def addToCookingHistory (history : List CookingHistory) (recipeId : String)
    (cookedAt : String) (rating : Option ℚ) (notes : Option String) :
    List CookingHistory :=
  { recipeId := recipeId, cookedAt := cookedAt, rating := rating, notes := notes } ::
    history.filter (fun h => h.recipeId != recipeId)

/-- JS `Set.prototype.add` on an insertion-ordered set of strings: append the
element unless already present (set membership is exact equality). -/
def addToSet (l : List String) (x : String) : List String :=
  if l.contains x then l else l ++ [x]

/-- The `complementaryMap` table of `src/services/RecommendationEngine.ts`,
in definition order. -/
def complementaryMap : List (String × List String) :=
  [("tomato", ["basil", "mozzarella", "garlic", "olive oil"]),
   ("chicken", ["rosemary", "thyme", "lemon", "garlic"]),
   ("pasta", ["parmesan", "basil", "garlic", "olive oil"]),
   ("rice", ["soy sauce", "ginger", "scallions"]),
   ("beef", ["onion", "garlic", "mushrooms"]),
   ("salmon", ["dill", "lemon", "capers"]),
   ("potato", ["rosemary", "thyme", "garlic", "butter"])]

/-- `getComplementaryIngredients` of the trimmed module: iterate the current
ingredients (outer), the table keys in definition order (inner), and add the
complements of every key contained in the lowercased current ingredient. -/
def getComplementaryIngredients (ingredients : List String) : List String :=
  ingredients.foldl (fun suggestions ingredient =>
    complementaryMap.foldl (fun suggestions kv =>
      if strIncludes (strLower ingredient) kv.1 then
        kv.2.foldl addToSet suggestions
      else suggestions) suggestions) []

/-- The final filter of `getSuggestedIngredients`: drop a suggestion when
some current ingredient contains it (case-insensitively) or some disliked
ingredient contains it. -/
def keepSuggestion (preferences : UserPreferences)
    (currentIngredients : List String) (ing : String) : Bool :=
  !(currentIngredients.any (fun current =>
      strIncludes (strLower current) (strLower ing))) &&
  !(preferences.dislikedIngredients.any (fun disliked =>
      strIncludes (strLower disliked) (strLower ing)))

/-- `getSuggestedIngredients` of the trimmed module: a set seeded with the
favorite ingredients, extended with the complementary ingredients, then
filtered and truncated to 8. -/
def getSuggestedIngredients (preferences : UserPreferences)
    (currentIngredients : List String) : List String :=
  let suggestions := (getComplementaryIngredients currentIngredients).foldl
    addToSet (preferences.favoriteIngredients.foldl addToSet [])
  (suggestions.filter (keepSuggestion preferences currentIngredients)).take 8

/-- The symmetric case-insensitive substring rule as the spec words it:
name A matches name B iff the lowercase of one contains the lowercase of the
other.  Stated from the spec for comparison with the code. -/
def symSubstringMatch (a b : String) : Bool :=
  strIncludes (strLower a) (strLower b) || strIncludes (strLower b) (strLower a)

/-- Complementary ingredients gathered in table-definition order, as the
spec words the ordering of `suggestIngredients` (for each table key in
definition order, its complements enter the set when some current ingredient
contains the key).  Stated from the spec for comparison with the code. -/
def getComplementaryIngredientsTableOrder (ingredients : List String) :
    List String :=
  complementaryMap.foldl (fun suggestions kv =>
    if ingredients.any (fun ingredient =>
        strIncludes (strLower ingredient) kv.1) then
      kv.2.foldl addToSet suggestions
    else suggestions) []

/-- The suggestion pipeline with the table-definition complement order the
spec describes, otherwise identical to `getSuggestedIngredients`.  Stated
from the spec for comparison with the code. -/
def getSuggestedIngredientsTableOrder (preferences : UserPreferences)
    (currentIngredients : List String) : List String :=
  let suggestions := (getComplementaryIngredientsTableOrder currentIngredients).foldl
    addToSet (preferences.favoriteIngredients.foldl addToSet [])
  (suggestions.filter (keepSuggestion preferences currentIngredients)).take 8

/-- The recipe of the worked scenario of the spec: `healthScore=80`,
`spoonacularScore=60`, `readyInMinutes=20`, ingredients tomato and basil. -/
def scenarioRecipe : Recipe :=
  { id := "1"
    healthScore := some 80
    spoonacularScore := some 60
    readyInMinutes := some 20
    extendedIngredients := some ["tomato", "basil"]
    instructions := none
    vegetarian := false
    vegan := false
    glutenFree := false }

theorem clampScore_nonneg (x : ℚ) : 0 ≤ clampScore x := le_max_left 0 _

theorem clampScore_le_100 (x : ℚ) : clampScore x ≤ 100 :=
  max_le (by norm_num) (min_le_left _ _)

/-- C1: for every recipe record, preferences value, cooking history and list
of available ingredients, both copies of the score function return a value in
the closed interval [0, 100]. -/
theorem score_in_unit_interval (recipe : Recipe) (preferences : UserPreferences)
    (history : List CookingHistory) (availableIngredients : List String) :
    (0 ≤ calculateRecipeScore recipe preferences availableIngredients ∧
      calculateRecipeScore recipe preferences availableIngredients ≤ 100) ∧
    (0 ≤ calculateRecipeScoreFull recipe preferences history availableIngredients ∧
      calculateRecipeScoreFull recipe preferences history availableIngredients ≤ 100) :=
  ⟨⟨clampScore_nonneg _, clampScore_le_100 _⟩,
    ⟨clampScore_nonneg _, clampScore_le_100 _⟩⟩

/-- C3 counterexample: for the name pair A = "tomatoes" (a favorite or
disliked entry), B = "tomato" (a recipe ingredient), the symmetric substring
rule matches and the availability counter counts the pair, yet the favorite
and disliked counters, which test substring containment in one direction
only, count nothing, so the three places do not share the symmetric rule. -/
theorem matching_rule_asymmetry_counterexample :
    symSubstringMatch "tomatoes" "tomato" = true ∧
    calculateIngredientAvailability ["tomato"] ["tomatoes"] = 1 ∧
    calculateFavoriteIngredientsBonus ["tomato"] ["tomatoes"] = 0 ∧
    calculateDislikedIngredientsPenalty ["tomato"] ["tomatoes"] = 0 := by
  with_unfolding_all decide

/-- C3 amended: on the lowercased recipe-ingredient lists the score passes to
its helpers, availability counts exactly the pairs related by the symmetric
case-insensitive substring rule, while the favorite and the disliked counters
share a one-directional rule: the lowercased recipe ingredient has to contain
the lowercased favorite or disliked name. -/
theorem matching_rules_characterized (R A favs dislikes : List String) :
    calculateIngredientAvailability (R.map strLower) A =
      (if R.length = 0 then 0 else
        (((R.filter (fun r => A.any (fun a => symSubstringMatch a r))).length : ℚ)) /
          ((R.length : ℚ))) ∧
    calculateFavoriteIngredientsBonus (R.map strLower) favs =
      (if favs.length = 0 then 0 else
        (((R.filter (fun r => favs.any (fun f =>
          strIncludes (strLower r) (strLower f)))).length : ℚ)) * 8) ∧
    calculateDislikedIngredientsPenalty (R.map strLower) dislikes =
      (if dislikes.length = 0 then 0 else
        (((R.filter (fun r => dislikes.any (fun d =>
          strIncludes (strLower r) (strLower d)))).length : ℚ)) * 15) := by
  refine ⟨?_, ?_, ?_⟩
  · unfold calculateIngredientAvailability
    rw [List.length_map, List.filter_map, List.length_map]
    rfl
  · unfold calculateFavoriteIngredientsBonus
    rw [List.filter_map, List.length_map]
    rfl
  · unfold calculateDislikedIngredientsPenalty
    rw [List.filter_map, List.length_map]
    rfl

/-- C4 counterexample: on the worked scenario input the fuller copy of the
score computes 91, not 71, because its dietary-compliance term (+10, the
default restriction set is empty) and its beginner-skill term (+10, the
recipe complexity estimate is easy) also fire. -/
theorem scenario_full_score_is_91 :
    calculateRecipeScoreFull scenarioRecipe defaultPreferences [] ["tomato"] = 91 ∧
    calculateRecipeScoreFull scenarioRecipe defaultPreferences [] ["tomato"] ≠ 71 := by
  with_unfolding_all decide

/-- C4 amended: the trimmed services engine computes exactly 71 on the
scenario (base 36, availability 10, time 25) and its rank attaches 71 to the
recipe, while the fuller duplicate reports 91 for the same input. -/
theorem scenario_score_is_71 :
    calculateRecipeScore scenarioRecipe defaultPreferences ["tomato"] = 71 ∧
    getPersonalizedRecommendations defaultPreferences ["tomato"] [scenarioRecipe] =
      [{ recipe := scenarioRecipe, personalScore := 71 }] := by
  with_unfolding_all decide

/-- C5: getUserPreferences returns a preferences record on every storage
state, and returns exactly the documented default when the read throws, when
nothing is stored, and when the stored string fails to parse. -/
theorem getUserPreferences_absorbs_failures
    (parse : String → Option UserPreferences) (s : String) :
    getUserPreferences .err parse = defaultPreferences ∧
    getUserPreferences (.ok none) parse = defaultPreferences ∧
    (parse s = none →
      getUserPreferences (.ok (some s)) parse = defaultPreferences) ∧
    defaultPreferences =
      { dietaryRestrictions := []
        favoriteIngredients := []
        dislikedIngredients := []
        cuisinePreferences := []
        maxCookingTime := 60
        skillLevel := .beginner } := by
  refine ⟨rfl, rfl, ?_, rfl⟩
  intro h
  unfold getUserPreferences
  by_cases hs : s = ""
  · simp [hs]
  · simp [hs, h]

/-- Witness for C5 at a concrete storage state: a stored string that fails to
parse yields the default preferences. -/
theorem getUserPreferences_absorbs_failures_witness :
    getUserPreferences (.ok (some "zzz")) (fun _ => none) = defaultPreferences :=
  (getUserPreferences_absorbs_failures (fun _ => none) "zzz").2.2.1 rfl

theorem scoredRecipes_all_scored (preferences : UserPreferences)
    (availableIngredients : List String) (recipes : List Recipe) :
    (getPersonalizedRecommendations preferences availableIngredients recipes).all
      (fun s => decide (s.personalScore =
        calculateRecipeScore s.recipe preferences availableIngredients)) = true := by
  rw [List.all_eq_true]
  intro s hs
  have hs' : s ∈ recipes.map (fun recipe =>
      ({ recipe := recipe
         personalScore :=
           calculateRecipeScore recipe preferences availableIngredients } :
         ScoredRecipe)) := by
    simpa [getPersonalizedRecommendations] using hs
  obtain ⟨r, _, rfl⟩ := List.mem_map.1 hs'
  simp

theorem scoredRecipesFull_all_scored (preferences : UserPreferences)
    (history : List CookingHistory) (availableIngredients : List String)
    (recipes : List Recipe) :
    (getPersonalizedRecommendationsFull preferences history availableIngredients
        recipes).all
      (fun s => decide (s.personalScore =
        calculateRecipeScoreFull s.recipe preferences history availableIngredients)) =
      true := by
  rw [List.all_eq_true]
  intro s hs
  have hs' : s ∈ recipes.map (fun recipe =>
      ({ recipe := recipe
         personalScore :=
           calculateRecipeScoreFull recipe preferences history availableIngredients } :
         ScoredRecipe)) := by
    simpa [getPersonalizedRecommendationsFull] using hs
  obtain ⟨r, _, rfl⟩ := List.mem_map.1 hs'
  simp

/-- C2: both rank functions return their results in non-increasing
personalScore order (every adjacent pair is related by `scoreGE`), and every
attached personalScore is the score of the carried recipe. -/
theorem rank_sorted_by_score (preferences : UserPreferences)
    (history : List CookingHistory) (availableIngredients : List String)
    (recipes : List Recipe) :
    List.Chain' scoreGE
      (getPersonalizedRecommendations preferences availableIngredients recipes) ∧
    (getPersonalizedRecommendations preferences availableIngredients recipes).all
      (fun s => decide (s.personalScore =
        calculateRecipeScore s.recipe preferences availableIngredients)) = true ∧
    List.Chain' scoreGE
      (getPersonalizedRecommendationsFull preferences history availableIngredients
        recipes) ∧
    (getPersonalizedRecommendationsFull preferences history availableIngredients
        recipes).all
      (fun s => decide (s.personalScore =
        calculateRecipeScoreFull s.recipe preferences history availableIngredients)) =
      true := by
  refine ⟨?_, scoredRecipes_all_scored .., ?_, scoredRecipesFull_all_scored ..⟩
  · exact List.Pairwise.chain' (List.sorted_insertionSort scoreGE _)
  · exact List.Pairwise.chain' (List.sorted_insertionSort scoreGE _)

theorem startsWithL_self (l : List Char) : startsWithL l l = true := by
  induction l with
  | nil => rfl
  | cons h t ih => simp [startsWithL, ih]

theorem includesL_self (l : List Char) : includesL l l = true := by
  cases l with
  | nil => rfl
  | cons h t => simp [includesL, startsWithL_self]

theorem strIncludes_self (s : String) : strIncludes s s = true :=
  includesL_self s.data

/-- C8: the suggestion list has at most 8 entries and contains no name that
is a member of the current ingredients nor one that is a member of the
disliked ingredients. -/
theorem suggestions_bounded_and_clean (preferences : UserPreferences)
    (currentIngredients : List String) :
    (getSuggestedIngredients preferences currentIngredients).length ≤ 8 ∧
    (getSuggestedIngredients preferences currentIngredients).all
      (fun ing => !(decide (ing ∈ currentIngredients)) &&
        !(decide (ing ∈ preferences.dislikedIngredients))) = true := by
  constructor
  · simp only [getSuggestedIngredients, List.length_take]
    exact min_le_left _ _
  · rw [List.all_eq_true]
    intro s hs
    have hfilter : s ∈ ((getComplementaryIngredients currentIngredients).foldl
        addToSet (preferences.favoriteIngredients.foldl addToSet [])).filter
        (keepSuggestion preferences currentIngredients) := by
      apply List.take_subset 8
      simpa [getSuggestedIngredients] using hs
    have hkeep := (List.mem_filter.1 hfilter).2
    have h1 : s ∉ currentIngredients := by
      intro hmem
      have hany : currentIngredients.any (fun current =>
          strIncludes (strLower current) (strLower s)) = true :=
        List.any_eq_true.2 ⟨s, hmem, strIncludes_self _⟩
      simp [keepSuggestion, hany] at hkeep
    have h2 : s ∉ preferences.dislikedIngredients := by
      intro hmem
      have hany : preferences.dislikedIngredients.any (fun disliked =>
          strIncludes (strLower disliked) (strLower s)) = true :=
        List.any_eq_true.2 ⟨s, hmem, strIncludes_self _⟩
      simp [keepSuggestion, hany] at hkeep
    simp [h1, h2]

theorem disjointPrefs_update (p : UserPreferences) (i : String) (b : Bool)
    (h : disjointPrefs p) : disjointPrefs (updateIngredientPreference p i b) := by
  intro x hx
  rcases hx with ⟨hfav, hdis⟩
  cases b with
  | true =>
    simp only [updateIngredientPreference] at hfav hdis
    rw [List.mem_filter] at hdis
    have hxi : x ≠ i := by simpa using hdis.2
    by_cases hc : p.favoriteIngredients.contains i = true
    · rw [if_pos hc] at hfav
      exact h x ⟨hfav, hdis.1⟩
    · rw [if_neg hc] at hfav
      rcases List.mem_append.1 hfav with hf | hf
      · exact h x ⟨hf, hdis.1⟩
      · exact hxi (List.mem_singleton.1 hf)
  | false =>
    simp only [updateIngredientPreference] at hfav hdis
    rw [List.mem_filter] at hfav
    have hxi : x ≠ i := by simpa using hfav.2
    by_cases hc : p.dislikedIngredients.contains i = true
    · rw [if_pos hc] at hdis
      exact h x ⟨hfav.1, hdis⟩
    · rw [if_neg hc] at hdis
      rcases List.mem_append.1 hdis with hd | hd
      · exact h x ⟨hfav.1, hd⟩
      · exact hxi (List.mem_singleton.1 hd)

theorem disjointPrefs_applyUpdates (p : UserPreferences)
    (updates : List (String × Bool)) (h : disjointPrefs p) :
    disjointPrefs (applyIngredientUpdates p updates) := by
  induction updates generalizing p with
  | nil => exact h
  | cons u rest ih =>
    simpa [applyIngredientUpdates] using
      ih (updateIngredientPreference p u.1 u.2) (disjointPrefs_update p u.1 u.2 h)

theorem contains_filter_ne (l : List String) (x : String) :
    (l.filter (fun ing => ing != x)).contains x = false := by
  rw [Bool.eq_false_iff]
  intro hc
  have hmem := List.mem_of_elem_eq_true hc
  rw [List.mem_filter] at hmem
  simp at hmem

/-- C6: from any state whose favorite and disliked sets share no name, every
sequence of recordIngredientPreference calls keeps the two sets disjoint, and
toggling a name to favorite and then to disliked leaves it only in the
disliked set. -/
theorem ingredient_sets_stay_disjoint (p : UserPreferences)
    (updates : List (String × Bool)) (x : String) (h : disjointPrefs p) :
    disjointPrefs (applyIngredientUpdates p updates) ∧
    x ∈ (updateIngredientPreference (updateIngredientPreference p x true) x
        false).dislikedIngredients ∧
    x ∉ (updateIngredientPreference (updateIngredientPreference p x true) x
        false).favoriteIngredients := by
  refine ⟨disjointPrefs_applyUpdates p updates h, ?_, ?_⟩
  · simp only [updateIngredientPreference]
    rw [if_neg]
    · exact List.mem_append_right _ (List.mem_singleton_self x)
    · rw [contains_filter_ne]
      simp
  · simp only [updateIngredientPreference]
    intro hmem
    rw [List.mem_filter] at hmem
    simp at hmem

/-- Witness for C6 at a concrete state: the default preferences with one
liked update stay disjoint, and the like-then-dislike toggle on "egg" leaves
"egg" only in the disliked set. -/
theorem ingredient_sets_stay_disjoint_witness :
    disjointPrefs (applyIngredientUpdates defaultPreferences [("egg", true)]) ∧
    "egg" ∈ (updateIngredientPreference (updateIngredientPreference
      defaultPreferences "egg" true) "egg" false).dislikedIngredients ∧
    "egg" ∉ (updateIngredientPreference (updateIngredientPreference
      defaultPreferences "egg" true) "egg" false).favoriteIngredients :=
  ingredient_sets_stay_disjoint defaultPreferences [("egg", true)] "egg"
    (fun x hx => by simp [defaultPreferences] at hx)

/-- C7: recordCookingEvent upserts by recipeId: afterwards the history counts
exactly one entry with that id, the new entry (with the new timestamp,
rating and notes) sits first, and no later entry carries the id. -/
theorem cooking_history_upsert (history : List CookingHistory)
    (recipeId cookedAt : String) (rating : Option ℚ) (notes : Option String) :
    (addToCookingHistory history recipeId cookedAt rating notes).countP
      (fun h => h.recipeId == recipeId) = 1 ∧
    (addToCookingHistory history recipeId cookedAt rating notes).head? =
      some { recipeId := recipeId, cookedAt := cookedAt, rating := rating,
             notes := notes } ∧
    (addToCookingHistory history recipeId cookedAt rating notes).tail.all
      (fun h => h.recipeId != recipeId) = true := by
  refine ⟨?_, rfl, ?_⟩
  · rw [addToCookingHistory, List.countP_cons]
    have h0 : (history.filter (fun h => h.recipeId != recipeId)).countP
        (fun h => h.recipeId == recipeId) = 0 := by
      rw [List.countP_eq_zero]
      intro a ha
      have ha2 := (List.mem_filter.1 ha).2
      simp only [bne_iff_ne, ne_eq] at ha2
      simp [ha2]
    rw [h0]
    simp
  · rw [addToCookingHistory]
    rw [List.all_eq_true]
    intro a ha
    exact (List.mem_filter.1 ha).2

/-- C9 counterexample: with current ingredients ["chicken", "tomato"] and the
default preferences, the code walks the current ingredients first, emitting
the chicken complements before the tomato complements, while the
table-definition order stated by the spec puts the tomato complements first;
the two pipelines disagree on this input. -/
theorem suggestion_order_counterexample :
    getSuggestedIngredients defaultPreferences ["chicken", "tomato"] =
      ["rosemary", "thyme", "lemon", "garlic", "basil", "mozzarella",
        "olive oil"] ∧
    getSuggestedIngredientsTableOrder defaultPreferences
        ["chicken", "tomato"] =
      ["basil", "mozzarella", "garlic", "olive oil", "rosemary", "thyme",
        "lemon"] ∧
    getSuggestedIngredients defaultPreferences ["chicken", "tomato"] ≠
      getSuggestedIngredientsTableOrder defaultPreferences
        ["chicken", "tomato"] := by
  decide

/-- The names a traversal adds to an insertion-ordered set whose current
content is `seen`, in insertion order: first occurrences only, in the order
of the traversed list, skipping names already seen. -/
def newInsertions (seen : List String) : List String → List String
  | [] => []
  | x :: xs =>
    if seen.contains x then newInsertions seen xs
    else x :: newInsertions (seen ++ [x]) xs

theorem foldl_addToSet_eq_append (xs l : List String) :
    xs.foldl addToSet l = l ++ newInsertions l xs := by
  induction xs generalizing l with
  | nil => simp [newInsertions]
  | cons a as ih =>
    by_cases hc : l.contains a = true
    · have hm : a ∈ l := List.mem_of_elem_eq_true hc
      rw [List.foldl_cons, addToSet, if_pos hc, ih]
      simp [newInsertions, hm]
    · have hm : a ∉ l := fun h => hc (List.elem_eq_true_of_mem h)
      rw [List.foldl_cons, addToSet, if_neg hc, ih]
      simp [newInsertions, hm, List.append_assoc]

theorem newInsertions_mem (seen xs : List String) :
    ∀ x ∈ newInsertions seen xs, x ∈ xs ∧ x ∉ seen := by
  induction xs generalizing seen with
  | nil =>
    intro x hx
    simp [newInsertions] at hx
  | cons a as ih =>
    intro x hx
    by_cases hc : seen.contains a = true
    · simp only [newInsertions, if_pos hc] at hx
      obtain ⟨h1, h2⟩ := ih seen x hx
      exact ⟨List.mem_cons_of_mem _ h1, h2⟩
    · simp only [newInsertions, if_neg hc] at hx
      rcases List.mem_cons.1 hx with rfl | hx'
      · exact ⟨List.mem_cons_self _ _,
          fun hl => hc (List.elem_eq_true_of_mem hl)⟩
      · obtain ⟨h1, h2⟩ := ih (seen ++ [a]) x hx'
        exact ⟨List.mem_cons_of_mem _ h1,
          fun hl => h2 (List.mem_append_left _ hl)⟩

/-- C9 amended: the suggestion list equals the pipeline over the explicit
insertion order: the favorites segment first (favorites in first-occurrence
order), followed by exactly the new complementary names in the order
getComplementaryIngredients produces them (per current ingredient, then per
matching table key in definition order), with the filter applied to that
concatenation and the truncation to 8 applied after the filter; every name
of the complementary segment is a complementary ingredient absent from the
favorites segment. -/
theorem suggestions_insertion_order (preferences : UserPreferences)
    (currentIngredients : List String) :
    (newInsertions (preferences.favoriteIngredients.foldl addToSet [])
        (getComplementaryIngredients currentIngredients)).all (fun x =>
      decide (x ∈ getComplementaryIngredients currentIngredients) &&
      !(decide (x ∈ preferences.favoriteIngredients.foldl addToSet []))) =
      true ∧
    getSuggestedIngredients preferences currentIngredients =
      ((preferences.favoriteIngredients.foldl addToSet [] ++
        newInsertions (preferences.favoriteIngredients.foldl addToSet [])
          (getComplementaryIngredients currentIngredients)).filter
        (keepSuggestion preferences currentIngredients)).take 8 := by
  constructor
  · rw [List.all_eq_true]
    intro x hx
    obtain ⟨h1, h2⟩ := newInsertions_mem
      (preferences.favoriteIngredients.foldl addToSet [])
      (getComplementaryIngredients currentIngredients) x hx
    simp [h1, h2]
  · simp only [getSuggestedIngredients]
    rw [foldl_addToSet_eq_append]

/-- C10: when the ingredient list of a recipe is missing or empty, the
lowercased ingredient-name list is empty, the availability fraction is 0
(the length guard avoids the division), and the score does not depend on the
available ingredients at all, so the availability term contributes nothing. -/
theorem empty_ingredient_list_availability (r : Recipe)
    (preferences : UserPreferences) (availableIngredients : List String)
    (h : r.extendedIngredients = none ∨ r.extendedIngredients = some []) :
    recipeIngredientNames r = [] ∧
    calculateIngredientAvailability (recipeIngredientNames r)
      availableIngredients = 0 ∧
    calculateRecipeScore r preferences availableIngredients =
      calculateRecipeScore r preferences [] := by
  have hn : recipeIngredientNames r = [] := by
    rcases h with h | h <;> simp [recipeIngredientNames, h]
  refine ⟨hn, ?_, ?_⟩
  · rw [hn]
    rfl
  · unfold calculateRecipeScore
    rw [hn]
    rfl

/-- The leanest possible recipe record: every optional attribute missing. -/
def bareRecipe : Recipe :=
  { id := "0"
    healthScore := none
    spoonacularScore := none
    readyInMinutes := none
    extendedIngredients := none
    instructions := none
    vegetarian := false
    vegan := false
    glutenFree := false }

/-- Witness for C10 at a concrete input: a recipe without an ingredient list
has an empty name list, availability 0, and a score independent of the
available ingredients. -/
theorem empty_ingredient_list_availability_witness :
    recipeIngredientNames bareRecipe = [] ∧
    calculateIngredientAvailability (recipeIngredientNames bareRecipe)
      ["tomato"] = 0 ∧
    calculateRecipeScore bareRecipe defaultPreferences ["tomato"] =
      calculateRecipeScore bareRecipe defaultPreferences [] :=
  empty_ingredient_list_availability bareRecipe defaultPreferences ["tomato"]
    (Or.inl rfl)
